import Mathlib

/-!
Verification of the grapple / locomotion / combat core of the `radiant-photon`
browser game against its natural-language specification.

The definitions below are a shallow embedding of the canonical `Player` class
(`src/unnamed/part_003`, the variant with dual-hook averaging, wall vault and
wall-impact detach that the spec describes) and of the `Titan` health model
(`src/src/titan.js`).  Vectors are embedded over the real numbers, mirroring
the `THREE.Vector3` operations the source uses; the external physics world
(ray-cast results, the body's inverse mass used by `applyImpulse`) is passed
in as explicit per-frame data.  Velocity writes (`setLinvel`) are modelled as
direct assignments; `applyImpulse J` adds `invMass • J` to the velocity and is
additionally recorded in an impulse trace so that theorems can speak about
which impulses a frame applies.
-/

/-- Fixed timestep used by `Player.update` (`const dt = 1 / 60`). -/
noncomputable def dt : ℝ := 1 / 60

/-- Embedding of `THREE.Vector3`: three real components. -/
@[ext] structure Vec3 where
  x : ℝ
  y : ℝ
  z : ℝ

/-- Componentwise vector addition (`THREE.Vector3.add` / `addVectors`). -/
def Vec3.add (a b : Vec3) : Vec3 := ⟨a.x + b.x, a.y + b.y, a.z + b.z⟩

/-- Componentwise vector subtraction (`THREE.Vector3.subVectors a b` = a - b). -/
def Vec3.sub (a b : Vec3) : Vec3 := ⟨a.x - b.x, a.y - b.y, a.z - b.z⟩

/-- Scalar multiplication (`THREE.Vector3.multiplyScalar`). -/
def Vec3.smul (a : Vec3) (s : ℝ) : Vec3 := ⟨a.x * s, a.y * s, a.z * s⟩

/-- Euclidean length (`THREE.Vector3.length`). -/
noncomputable def Vec3.length (a : Vec3) : ℝ :=
  Real.sqrt (a.x ^ 2 + a.y ^ 2 + a.z ^ 2)

/-- Distance between two points (`THREE.Vector3.distanceTo`). -/
noncomputable def Vec3.distanceTo (a b : Vec3) : ℝ := (Vec3.sub b a).length

/-- `THREE.Vector3.normalize`: divides by `length || 1`, so the zero vector is
left unchanged. -/
noncomputable def Vec3.normalize (v : Vec3) : Vec3 :=
  if v.length = 0 then v else v.smul (1 / v.length)

/-- Cross product (`THREE.Vector3.crossVectors`). -/
def Vec3.cross (a b : Vec3) : Vec3 :=
  ⟨a.y * b.z - a.z * b.y, a.z * b.x - a.x * b.z, a.x * b.y - a.y * b.x⟩

/-- `THREE.Vector3.addScaledVector`. -/
def Vec3.addScaledVector (a v : Vec3) (s : ℝ) : Vec3 := a.add (v.smul s)

/-! ## Basic facts about the vector embedding -/

theorem Vec3.length_nonneg (v : Vec3) : 0 ≤ v.length := Real.sqrt_nonneg _

theorem Vec3.length_smul (v : Vec3) (s : ℝ) :
    (v.smul s).length = |s| * v.length := by
  unfold Vec3.length Vec3.smul
  have h : (v.x * s) ^ 2 + (v.y * s) ^ 2 + (v.z * s) ^ 2
      = s ^ 2 * (v.x ^ 2 + v.y ^ 2 + v.z ^ 2) := by ring
  rw [h, Real.sqrt_mul (sq_nonneg s), Real.sqrt_sq_eq_abs]

theorem Vec3.length_eq_zero_iff (v : Vec3) : v.length = 0 ↔ v = ⟨0, 0, 0⟩ := by
  unfold Vec3.length
  constructor
  · intro h
    have hnn : 0 ≤ v.x ^ 2 + v.y ^ 2 + v.z ^ 2 := by positivity
    have h0 : v.x ^ 2 + v.y ^ 2 + v.z ^ 2 = 0 :=
      le_antisymm (Real.sqrt_eq_zero'.mp h) hnn
    have hx : v.x = 0 := by nlinarith [sq_nonneg v.x, sq_nonneg v.y, sq_nonneg v.z]
    have hy : v.y = 0 := by nlinarith [sq_nonneg v.x, sq_nonneg v.y, sq_nonneg v.z]
    have hz : v.z = 0 := by nlinarith [sq_nonneg v.x, sq_nonneg v.y, sq_nonneg v.z]
    cases v
    simp_all
  · rintro rfl
    norm_num

theorem Vec3.length_normalize (v : Vec3) (h : v.length ≠ 0) :
    v.normalize.length = 1 := by
  unfold Vec3.normalize
  rw [if_neg h, Vec3.length_smul]
  have hpos : 0 < v.length := lt_of_le_of_ne (Vec3.length_nonneg v) (Ne.symm h)
  rw [abs_of_pos (by positivity)]
  field_simp

theorem dt_pos : 0 < dt := by unfold dt; norm_num

/-! ## Hook state machine (`this.hooks.left` / `this.hooks.right`)

A hook is a mutable bag of fields in the source; the `line`, `arrow` and
`joint` handles are embedded as booleans recording whether the resource is
currently allocated. -/

inductive HookState where
  | IDLE
  | SHOOTING
  | ATTACHED
deriving DecidableEq

structure Hook where
  state : HookState
  joint : Bool
  line : Bool
  arrow : Bool
  target : Vec3
  currentPos : Vec3
  shootSpeed : ℝ

/-- `Player.clearHook(side)`: when the hook is not IDLE, reset the state and
release line, arrow and joint (each removal guarded by a null check in the
source, so the net effect is that all three handles end up null). -/
def clearHook (hook : Hook) : Hook :=
  if hook.state ≠ HookState.IDLE then
    { hook with state := HookState.IDLE, line := false, arrow := false, joint := false }
  else hook

/-- How many `scene.remove` / `removeImpulseJoint` release operations a
`clearHook` call performs: one per currently-allocated handle, and none at all
when the hook is already IDLE (the whole body is guarded by the state check). -/
def clearHookRemovals (hook : Hook) : ℕ :=
  if hook.state ≠ HookState.IDLE then
    (if hook.line then 1 else 0) + (if hook.arrow then 1 else 0) +
      (if hook.joint then 1 else 0)
  else 0

/-- `Player.shootHook(side)`.  The camera data check (`!this.lastCamDir ||
!this.lastCamPos`) is the `camOk` flag; the ray cast against the world is
abstracted by its result, `hit` (the hit point `ray.pointAt(hit.timeOfImpact)`
when some collider was hit within `maxHookDistance`); `waistPos` is the
character-relative start position the source computes from the mesh quaternion
and the lateral waist offset.  On a hit the hook enters SHOOTING and the line
and arrow visuals are allocated; on a miss (or missing camera data) nothing
happens beyond the initial `clearHook`. -/
def shootHook (hook : Hook) (camOk : Bool) (hit : Option Vec3) (waistPos : Vec3) : Hook :=
  let h0 := clearHook hook
  if camOk = false then h0
  else
    match hit with
    | none => h0
    | some hitPoint =>
        { h0 with state := HookState.SHOOTING, target := hitPoint,
                  currentPos := waistPos, line := true, arrow := true }

/-! ## Titan health model (`src/src/titan.js`)

Health is embedded over the rationals (damage values are ordinary numbers; the
operations used are subtraction and comparison).  `die()`s externally
observable effects are kept: the alive flag, the health-bar visibility, and
the death pose (the body is raised by 2: `this.mesh.position.y += 2`), which
lets theorems count how many times the terminal transition has run. -/

structure TitanState where
  currentHealth : ℚ
  isAlive : Bool
  healthBarVisible : Bool
  posY : ℚ
deriving DecidableEq

/-- `Titan.die()`: flips the alive flag, hides the health bar and applies the
death pose. -/
def Titan.die (t : TitanState) : TitanState :=
  { t with isAlive := false, healthBarVisible := false, posY := t.posY + 2 }

/-- `Titan.takeDamage(damage)`: early-returns on a dead titan; otherwise
subtracts the damage and runs `die()` exactly when health crosses `≤ 0`
(the nape flash in the else branch is a transient visual and is not state). -/
def Titan.takeDamage (damage : ℚ) (t : TitanState) : TitanState :=
  if t.isAlive = false then t
  else
    let t' := { t with currentHealth := t.currentHealth - damage }
    if t'.currentHealth ≤ 0 then Titan.die t' else t'

/-! ## Player per-frame update (`Player.update(camera)` in `src/unnamed/part_003`)

The update is split into the source's sequential blocks; `update` composes
them in the source's order.  External per-frame data (the camera direction,
the ray-cast results, the rigid body's inverse mass) is collected in `Env`. -/

structure Keys where
  w : Bool
  a : Bool
  s : Bool
  d : Bool
  space : Bool
  shift : Bool
  r : Bool

structure PlayerState where
  pos : Vec3
  vel : Vec3
  left : Hook
  right : Hook
  prevSpace : Bool
  jumpCooldown : ℝ
  prevVelocity : Vec3

/-- Per-frame external data: `camDir` is the camera world direction;
`groundToi` the time of impact of the downward ground ray (when it hit);
`wallHitLeft` / `wallHitRight` whether the forward vault ray for that side
would hit within 1.5m; `invMass` the rigid body's inverse mass, through which
`applyImpulse` changes the linear velocity. -/
structure Env where
  camDir : Vec3
  groundToi : Option ℝ
  wallHitLeft : Bool
  wallHitRight : Bool
  invMass : ℝ

/-- The movement block: axis-summed move vector from WASD, normalized, mapped
through the camera's horizontal forward/right frame, then written directly as
the horizontal velocity (swing reduces control authority to 30%); with no keys
held and no attached hook the horizontal velocity is zeroed.  The quaternion
slerp toward the heading is presentation-only and is not part of the state. -/
noncomputable def moveStep (k : Keys) (camDir : Vec3) (st : PlayerState) : PlayerState :=
  let speed : ℝ := if k.shift then 25 else 10
  let linvel := st.vel
  let moveDir : Vec3 :=
    ⟨(if k.a then (-1 : ℝ) else 0) + (if k.d then 1 else 0), 0,
     (if k.w then (-1 : ℝ) else 0) + (if k.s then 1 else 0)⟩
  let isSwinging :=
    st.left.state = HookState.ATTACHED ∨ st.right.state = HookState.ATTACHED
  if 0 < moveDir.length then
    let m := moveDir.normalize
    let camForward := (Vec3.mk camDir.x 0 camDir.z).normalize
    let camRight := camForward.cross ⟨0, 1, 0⟩
    let finalDir := (camForward.smul (-m.z)).add (camRight.smul m.x)
    let moveSpeed := if isSwinging then speed * 0.3 else speed
    { st with vel := ⟨finalDir.x * moveSpeed, linvel.y, finalDir.z * moveSpeed⟩ }
  else
    if isSwinging then st else { st with vel := ⟨0, linvel.y, 0⟩ }

/-- The jump block: first the cooldown tick (`if (jumpCooldown > 0) -= dt`),
then the key-down-edge jump gated on grounded and cooldown, then the press
latch (`prevSpace` mirrors the key at the end of the block). -/
noncomputable def jumpStep (k : Keys) (isGrounded : Bool) (st : PlayerState) : PlayerState :=
  let c : ℝ := if 0 < st.jumpCooldown then st.jumpCooldown - dt else st.jumpCooldown
  if k.space then
    if st.prevSpace = false ∧ isGrounded = true ∧ c ≤ 0 then
      { st with vel := ⟨st.vel.x, 15, st.vel.z⟩, jumpCooldown := 0.5, prevSpace := true }
    else
      { st with jumpCooldown := c, prevSpace := true }
  else
    { st with jumpCooldown := c, prevSpace := false }

/-- The gas-boost block: while `r` is held, an impulse of `2` along the camera
direction (its effect on the velocity is `invMass` times the impulse). -/
noncomputable def boostStep (k : Keys) (env : Env) (st : PlayerState) : PlayerState :=
  if k.r then
    { st with vel := st.vel.add ((env.camDir.smul 2).smul env.invMass) }
  else st

/-- The wall-impact detach block: `linvel0` is the velocity the source read at
the top of the frame (the `linvel` const, captured before the movement writes).
If a hook is attached, the previous frame was fast (`> 5`) and the speed has
dropped by more than `8`, both hooks are force-cleared; `prevVelocity` is then
overwritten with this frame's captured velocity either way. -/
noncomputable def wallDetachStep (linvel0 : Vec3) (st : PlayerState) : PlayerState :=
  let currentVel := linvel0
  let st' :=
    if (st.left.state = HookState.ATTACHED ∨ st.right.state = HookState.ATTACHED) ∧
        5 < st.prevVelocity.length ∧ 8 < st.prevVelocity.length - currentVel.length then
      { st with left := clearHook st.left, right := clearHook st.right }
    else st
  { st' with prevVelocity := currentVel }

/-- The anti-gravity block: while any hook is ATTACHED or SHOOTING, a downward
velocity is damped by the factor 0.8. -/
noncomputable def antiGravityStep (st : PlayerState) : PlayerState :=
  let isHookedNow :=
    st.left.state = HookState.ATTACHED ∨ st.right.state = HookState.ATTACHED ∨
    st.left.state = HookState.SHOOTING ∨ st.right.state = HookState.SHOOTING
  if isHookedNow ∧ st.vel.y < 0 then
    { st with vel := ⟨st.vel.x, st.vel.y * 0.8, st.vel.z⟩ }
  else st

/-- The SHOOTING branch's effect on the hook fields: travel `shootSpeed · dt`
toward the target, snapping to the target (and transitioning to ATTACHED)
once the remaining distance is covered. -/
noncomputable def shootingAdvance (hook : Hook) : Hook :=
  let distToTarget := hook.currentPos.distanceTo hook.target
  let travelDist := hook.shootSpeed * dt
  if distToTarget ≤ travelDist then
    { hook with currentPos := hook.target, state := HookState.ATTACHED }
  else
    let dir := (hook.target.sub hook.currentPos).normalize
    { hook with currentPos := hook.currentPos.add (dir.smul travelDist) }

/-- The full SHOOTING branch: the hook advance together with the one-time
attachment kick (`initialImpulse = 20` toward the target) applied on the tick
the hook snaps to its target. -/
noncomputable def shootingStep (playerVec : Vec3) (invMass : ℝ) (hook : Hook) (vel : Vec3) :
    Hook × Vec3 × List Vec3 :=
  if hook.currentPos.distanceTo hook.target ≤ hook.shootSpeed * dt then
    let dir := (hook.target.sub playerVec).normalize
    let imp := dir.smul 20
    (shootingAdvance hook, vel.add (imp.smul invMass), [imp])
  else
    (shootingAdvance hook, vel, [])

/-- The ATTACHED branch for one side.  `lTargetNow` / `rTargetNow` are the two
hooks' current targets (the source reads `leftHook.target` / `rightHook.target`
at force time); `isDualHook` was computed before the per-side loop.  Within
the release threshold: either the airborne wall vault (forward ray hit) or the
plain auto-release that zeroes a positive vertical velocity.  Otherwise the
reel impulse: `reelForce = 120` along the (single or dual-averaged) direction,
plus the upward boost `min(heightDiff * 0.5, 10)` when the target is more than
2 above the character. -/
noncomputable def attachedStep (isGrounded wallHit isDualHook : Bool)
    (playerVec lTargetNow rTargetNow : Vec3) (invMass : ℝ)
    (hook : Hook) (vel : Vec3) : Hook × Vec3 × List Vec3 :=
  let dist := playerVec.distanceTo hook.target
  if dist < 3 then
    if isGrounded = false ∧ wallHit = true then
      let fd0 := (hook.target.sub playerVec).normalize
      let forwardDir := (Vec3.mk fd0.x 0 fd0.z).normalize
      (clearHook hook, ⟨forwardDir.x * 10, 15, forwardDir.z * 10⟩, [])
    else
      (clearHook hook, if 0 < vel.y then ⟨vel.x, 0, vel.z⟩ else vel, [])
  else
    let dir :=
      if isDualHook then
        ((lTargetNow.sub playerVec).normalize.add
          ((rTargetNow.sub playerVec).normalize)).normalize
      else (hook.target.sub playerVec).normalize
    let heightDiff := hook.target.y - playerVec.y
    let upwardBoost : ℝ := if 2 < heightDiff then min (heightDiff * 0.5) 10 else 0
    let imp : Vec3 :=
      ⟨dir.x * 120 * dt, dir.y * 120 * dt + upwardBoost * dt, dir.z * 120 * dt⟩
    (hook, vel.add (imp.smul invMass), [imp])

/-- One side of the per-hook loop body, dispatching on the hook's state. -/
noncomputable def hookSideStep (isGrounded wallHit isDualHook : Bool)
    (playerVec lTargetNow rTargetNow : Vec3) (invMass : ℝ)
    (hook : Hook) (vel : Vec3) : Hook × Vec3 × List Vec3 :=
  match hook.state with
  | HookState.SHOOTING => shootingStep playerVec invMass hook vel
  | HookState.ATTACHED =>
      attachedStep isGrounded wallHit isDualHook playerVec lTargetNow rTargetNow
        invMass hook vel
  | HookState.IDLE => (hook, vel, [])

/-- The hook-physics block: `playerVec` and `isDualHook` are computed once,
then the loop body runs for the left and then the right side (the right side
reads the left hook's target as it stands after the left side's step).  The
returned list is the trace of impulses the block applies. -/
noncomputable def hooksStep (isGrounded wallHitLeft wallHitRight : Bool) (invMass : ℝ)
    (st : PlayerState) : PlayerState × List Vec3 :=
  let playerVec := st.pos
  let isDualHook : Bool :=
    decide (st.left.state = HookState.ATTACHED ∧ st.right.state = HookState.ATTACHED)
  let resL := hookSideStep isGrounded wallHitLeft isDualHook playerVec
    st.left.target st.right.target invMass st.left st.vel
  let resR := hookSideStep isGrounded wallHitRight isDualHook playerVec
    resL.1.target st.right.target invMass st.right resL.2.1
  ({ st with left := resL.1, right := resR.1, vel := resR.2.1 },
    resL.2.2 ++ resR.2.2)

/-- The jump-cancel block at the end of `update`: on a key-down edge with some
hook non-IDLE, clear both hooks, add the +10 vertical boost and restart the
cooldown. -/
noncomputable def jumpCancelStep (k : Keys) (st : PlayerState) : PlayerState :=
  if k.space = true ∧ st.prevSpace = false then
    if st.left.state ≠ HookState.IDLE ∨ st.right.state ≠ HookState.IDLE then
      { st with left := clearHook st.left, right := clearHook st.right,
                vel := ⟨st.vel.x, st.vel.y + 10, st.vel.z⟩, jumpCooldown := 0.5 }
    else st
  else st

/-- The grounded check (`hit && hit.timeOfImpact < 0.1 && velY <= 0.1`),
from the downward ground-ray result and the current vertical velocity. -/
noncomputable def groundedCheck (groundToi : Option ℝ) (velY : ℝ) : Bool :=
  match groundToi with
  | some toi => decide (toi < 0.1) && decide (velY ≤ 0.1)
  | none => false

/-- `Player.update(camera)`: the source's blocks in source order.  `isGrounded`
is derived from the ground ray result and the vertical velocity exactly as in
the source.  The returned list is the trace of impulses applied by the
hook-physics block. -/
noncomputable def update (env : Env) (k : Keys) (st : PlayerState) :
    PlayerState × List Vec3 :=
  let linvel0 := st.vel
  let st1 := moveStep k env.camDir st
  let isGrounded : Bool := groundedCheck env.groundToi st1.vel.y
  let st2 := jumpStep k isGrounded st1
  let st3 := boostStep k env st2
  let st4 := wallDetachStep linvel0 st3
  let st5 := antiGravityStep st4
  let res := hooksStep isGrounded env.wallHitLeft env.wallHitRight env.invMass st5
  let st6 := jumpCancelStep k res.1
  (st6, res.2)

/-- One tick of the per-hook loop restricted to the hook's own fields (the
SHOOTING travel; other states leave the hook unchanged on this projection
until an external event fires). -/
noncomputable def hookTickPure (hook : Hook) : Hook :=
  match hook.state with
  | HookState.SHOOTING => shootingAdvance hook
  | _ => hook

/-! ## Evaluation helpers -/

/-- Square-root evaluation at perfect squares, for concrete witnesses. -/
theorem sqrtEq {a b : ℝ} (hb : 0 ≤ b) (h : a = b ^ 2) : Real.sqrt a = b := by
  rw [h]; exact Real.sqrt_sq hb

theorem distanceTo_eval {a b : Vec3} {r : ℝ} (hr : 0 ≤ r)
    (h : (b.x - a.x) ^ 2 + (b.y - a.y) ^ 2 + (b.z - a.z) ^ 2 = r ^ 2) :
    a.distanceTo b = r := by
  unfold Vec3.distanceTo Vec3.sub Vec3.length
  exact sqrtEq hr h

/-! ## C9 — clearHook is an idempotent, allocation-free release -/

/-- C9: calling `clearHook` on an IDLE hook leaves the hook entirely unchanged
and performs no release operations; `clearHook` is idempotent; on a non-IDLE
hook it transitions to IDLE releasing line, arrow and joint, and a repeated
call releases nothing further (each resource is released exactly once). -/
theorem clearHook_idempotent (h : Hook) :
    (h.state = HookState.IDLE → clearHook h = h ∧ clearHookRemovals h = 0) ∧
    clearHook (clearHook h) = clearHook h ∧
    (h.state ≠ HookState.IDLE →
      (clearHook h).state = HookState.IDLE ∧ (clearHook h).line = false ∧
      (clearHook h).arrow = false ∧ (clearHook h).joint = false ∧
      clearHookRemovals (clearHook h) = 0) := by
  unfold clearHook clearHookRemovals
  by_cases hs : h.state = HookState.IDLE <;> simp [hs]

/-- C9 witness: the three parts of `clearHook_idempotent` at concrete hooks
(an attached hook holding all three resources, and an idle hook). -/
theorem clearHook_idempotent_witness :
    (clearHook (clearHook ⟨HookState.ATTACHED, true, true, true, ⟨0, 0, 0⟩, ⟨0, 0, 0⟩, 80⟩)
      = clearHook ⟨HookState.ATTACHED, true, true, true, ⟨0, 0, 0⟩, ⟨0, 0, 0⟩, 80⟩) ∧
    clearHook ⟨HookState.IDLE, false, false, false, ⟨0, 0, 0⟩, ⟨0, 0, 0⟩, 80⟩
      = ⟨HookState.IDLE, false, false, false, ⟨0, 0, 0⟩, ⟨0, 0, 0⟩, 80⟩ ∧
    (clearHook ⟨HookState.ATTACHED, true, true, true, ⟨0, 0, 0⟩, ⟨0, 0, 0⟩, 80⟩).state
      = HookState.IDLE ∧
    clearHookRemovals
      (clearHook ⟨HookState.ATTACHED, true, true, true, ⟨0, 0, 0⟩, ⟨0, 0, 0⟩, 80⟩) = 0 :=
  ⟨(clearHook_idempotent _).2.1,
   ((clearHook_idempotent ⟨HookState.IDLE, false, false, false, ⟨0, 0, 0⟩, ⟨0, 0, 0⟩, 80⟩).1
      rfl).1,
   ((clearHook_idempotent _).2.2 (by simp)).1,
   ((clearHook_idempotent ⟨HookState.ATTACHED, true, true, true, ⟨0, 0, 0⟩, ⟨0, 0, 0⟩, 80⟩).2.2
      (by simp)).2.2.2.2⟩

/-! ## C8 — a missed grapple is a denied request, not a state change -/

/-- C8: when the aiming ray hits nothing within range (or camera data is
unavailable), `shootHook` leaves the hook IDLE with no line, arrow or joint
allocated.  The hypothesis is the source's resource invariant: an IDLE hook
holds no handles. -/
theorem shootHook_miss_denied (h : Hook) (camOk : Bool) (hit : Option Vec3) (w : Vec3)
    (hinv : h.state = HookState.IDLE → h.line = false ∧ h.arrow = false ∧ h.joint = false)
    (hmiss : camOk = false ∨ hit = none) :
    (shootHook h camOk hit w).state = HookState.IDLE ∧
    (shootHook h camOk hit w).line = false ∧
    (shootHook h camOk hit w).arrow = false ∧
    (shootHook h camOk hit w).joint = false := by
  have hcleared : (clearHook h).state = HookState.IDLE ∧ (clearHook h).line = false ∧
      (clearHook h).arrow = false ∧ (clearHook h).joint = false := by
    unfold clearHook
    by_cases hs : h.state = HookState.IDLE
    · simpa [hs] using hinv hs
    · simp [hs]
  unfold shootHook
  rcases hmiss with hc | hh
  · simpa [hc] using hcleared
  · subst hh
    by_cases hc : camOk = false <;> simpa [hc] using hcleared

/-- C8 witness: shooting with a valid camera but a missed ray on an idle hook. -/
theorem shootHook_miss_denied_witness :
    (shootHook ⟨HookState.IDLE, false, false, false, ⟨0, 0, 0⟩, ⟨0, 0, 0⟩, 80⟩
        true none ⟨0, 0, 0⟩).state = HookState.IDLE ∧
    (shootHook ⟨HookState.IDLE, false, false, false, ⟨0, 0, 0⟩, ⟨0, 0, 0⟩, 80⟩
        true none ⟨0, 0, 0⟩).line = false ∧
    (shootHook ⟨HookState.IDLE, false, false, false, ⟨0, 0, 0⟩, ⟨0, 0, 0⟩, 80⟩
        true none ⟨0, 0, 0⟩).arrow = false ∧
    (shootHook ⟨HookState.IDLE, false, false, false, ⟨0, 0, 0⟩, ⟨0, 0, 0⟩, 80⟩
        true none ⟨0, 0, 0⟩).joint = false :=
  shootHook_miss_denied _ _ _ _ (fun _ => ⟨rfl, rfl, rfl⟩) (Or.inr rfl)

/-! ## C7 — lethal damage kills exactly once; damage on a dead titan is a no-op -/

/-- C7: on a living titan, damage at least the current health flips `isAlive`
to false and runs the terminal `die` transition in this very call (witnessed
by the one-time death pose `posY + 2`); and `takeDamage` on any dead titan is
the identity, so the death transition can never run a second time. -/
theorem takeDamage_kill_once (t : TitanState) (d : ℚ)
    (ha : t.isAlive = true) (hd : t.currentHealth ≤ d) :
    ((Titan.takeDamage d t).isAlive = false ∧
     (Titan.takeDamage d t).posY = t.posY + 2) ∧
    ∀ (u : TitanState) (e : ℚ), u.isAlive = false → Titan.takeDamage e u = u := by
  constructor
  · unfold Titan.takeDamage Titan.die
    have hle : t.currentHealth - d ≤ 0 := by linarith
    simp [ha, hle]
  · intro u e hu
    unfold Titan.takeDamage
    simp [hu]

/-- C7 witness: 150 damage on a titan with 100 health kills it and applies the
death pose once; further damage on a dead titan changes nothing. -/
theorem takeDamage_kill_once_witness :
    ((Titan.takeDamage 150 ⟨100, true, true, 0⟩).isAlive = false ∧
     (Titan.takeDamage 150 ⟨100, true, true, 0⟩).posY = 0 + 2) ∧
    Titan.takeDamage 30 ⟨-50, false, false, 2⟩ = ⟨-50, false, false, 2⟩ :=
  ⟨(takeDamage_kill_once ⟨100, true, true, 0⟩ 150 rfl (by norm_num)).1,
   (takeDamage_kill_once ⟨100, true, true, 0⟩ 150 rfl (by norm_num)).2
     ⟨-50, false, false, 2⟩ 30 rfl⟩

/-! ## C6 — normal jump gating -/

/-- C6: the normal jump fires exactly on a key-down edge (`space` held now,
not on the previous frame) while grounded with the (just-ticked) cooldown
`≤ 0`; on success the vertical velocity is set to the fixed jump speed 15 and
the 0.5 s cooldown starts; in every other case (airborne press, cooldown still
positive, held key, no key) the velocity is left unchanged.  The press latch
always ends the frame mirroring the key. -/
theorem jump_edge_gating (k : Keys) (g : Bool) (st : PlayerState) :
    (jumpStep k g st).vel =
      (if k.space = true ∧ st.prevSpace = false ∧ g = true ∧
          (if 0 < st.jumpCooldown then st.jumpCooldown - dt else st.jumpCooldown) ≤ 0
        then (⟨st.vel.x, 15, st.vel.z⟩ : Vec3) else st.vel) ∧
    (jumpStep k g st).jumpCooldown =
      (if k.space = true ∧ st.prevSpace = false ∧ g = true ∧
          (if 0 < st.jumpCooldown then st.jumpCooldown - dt else st.jumpCooldown) ≤ 0
        then (0.5 : ℝ)
        else (if 0 < st.jumpCooldown then st.jumpCooldown - dt else st.jumpCooldown)) ∧
    (jumpStep k g st).prevSpace = k.space := by
  unfold jumpStep
  by_cases hs : k.space
  · by_cases hg : st.prevSpace = false ∧ g = true ∧
        (if 0 < st.jumpCooldown then st.jumpCooldown - dt else st.jumpCooldown) ≤ 0
    · simp [hs, hg]
    · simp [hs, hg]
  · simp [hs]

/-! ## C5 — auto-release within the 3-unit threshold -/

/-- C5: on a tick where a hook is ATTACHED, the character is within 3 world
units of its target and the wall vault does not fire (grounded, or no wall
ahead), the hook is auto-cleared to IDLE; a positive vertical velocity is
zeroed with the horizontal components untouched, a non-positive one is left
alone; and no impulse is applied. -/
theorem attached_release_threshold (isGrounded wallHit isDual : Bool)
    (p lT rT : Vec3) (m : ℝ) (hook : Hook) (vel : Vec3)
    (hst : hook.state = HookState.ATTACHED)
    (hdist : p.distanceTo hook.target < 3)
    (hnovault : isGrounded = true ∨ wallHit = false) :
    hookSideStep isGrounded wallHit isDual p lT rT m hook vel =
      (clearHook hook, (if 0 < vel.y then (⟨vel.x, 0, vel.z⟩ : Vec3) else vel), []) ∧
    (clearHook hook).state = HookState.IDLE := by
  have hno : ¬(isGrounded = false ∧ wallHit = true) := by
    rcases hnovault with h | h <;> simp [h]
  refine ⟨?_, ?_⟩
  · unfold hookSideStep
    rw [hst]
    unfold attachedStep
    rw [if_pos hdist, if_neg hno]
  · unfold clearHook
    rw [if_pos (by rw [hst]; exact fun hcon => HookState.noConfusion hcon)]

/-- C5 witness: attached hook 2 units away while grounded (so the vault is
skipped), ascending at vertical velocity 5: the hook clears and the velocity
becomes (1, 0, 0). -/
theorem attached_release_threshold_witness :
    hookSideStep true true false ⟨0, 0, 0⟩ ⟨0, 0, 0⟩ ⟨0, 0, 0⟩ 1
        ⟨HookState.ATTACHED, false, true, true, ⟨0, 0, 2⟩, ⟨0, 0, 2⟩, 80⟩ ⟨1, 5, 0⟩ =
      (clearHook ⟨HookState.ATTACHED, false, true, true, ⟨0, 0, 2⟩, ⟨0, 0, 2⟩, 80⟩,
        (⟨1, 0, 0⟩ : Vec3), []) := by
  have h := (attached_release_threshold true true false ⟨0, 0, 0⟩ ⟨0, 0, 0⟩ ⟨0, 0, 0⟩ 1
    ⟨HookState.ATTACHED, false, true, true, ⟨0, 0, 2⟩, ⟨0, 0, 2⟩, 80⟩ ⟨1, 5, 0⟩ rfl
    (by rw [distanceTo_eval (r := 2) (by norm_num) (by norm_num)]; norm_num)
    (Or.inl rfl)).1
  rw [h]
  norm_num

/-! ## C4 — the reel impulse: constant pull only when no upward boost fires -/

/-- The ATTACHED branch beyond the release threshold: the hook is untouched
and the reel impulse (with the optional upward boost) is applied. -/
theorem attachedStep_far (isGrounded wallHit isDual : Bool) (p lT rT : Vec3) (m : ℝ)
    (hook : Hook) (vel : Vec3) (hdist : 3 ≤ p.distanceTo hook.target) :
    attachedStep isGrounded wallHit isDual p lT rT m hook vel =
      (let dir := if isDual then ((lT.sub p).normalize.add ((rT.sub p).normalize)).normalize
                  else (hook.target.sub p).normalize
       let upwardBoost : ℝ :=
         if 2 < hook.target.y - p.y then min ((hook.target.y - p.y) * 0.5) 10 else 0
       let imp : Vec3 :=
         ⟨dir.x * 120 * dt, dir.y * 120 * dt + upwardBoost * dt, dir.z * 120 * dt⟩
       (hook, vel.add (imp.smul m), [imp])) := by
  unfold attachedStep
  rw [if_neg (not_lt.mpr hdist)]

/-- The per-side loop body on an ATTACHED hook is the ATTACHED branch. -/
theorem hookSideStep_attached (isGrounded wallHit isDual : Bool) (p lT rT : Vec3)
    (m : ℝ) (hook : Hook) (vel : Vec3) (hst : hook.state = HookState.ATTACHED) :
    hookSideStep isGrounded wallHit isDual p lT rT m hook vel =
      attachedStep isGrounded wallHit isDual p lT rT m hook vel := by
  unfold hookSideStep
  rw [hst]

/-- C4 (amended): while a single hook is ATTACHED beyond the release threshold
and its target is at most 2 units above the character, the tick applies
exactly one impulse, `(120·dt)` times the unit vector from character to
target: its magnitude is the constant `120·dt`, independent of the distance.
(When the target is more than 2 above, the source adds an upward boost of
`min(heightDiff/2, 10)·dt`, which breaks the constancy — see the
counterexample.) -/
theorem reel_constant_pull (isGrounded wallHit : Bool) (p lT rT : Vec3) (m : ℝ)
    (hook : Hook) (vel : Vec3)
    (hst : hook.state = HookState.ATTACHED)
    (hdist : 3 ≤ p.distanceTo hook.target)
    (hheight : hook.target.y - p.y ≤ 2) :
    (hookSideStep isGrounded wallHit false p lT rT m hook vel).2.2 =
      [((hook.target.sub p).normalize).smul (120 * dt)] ∧
    (((hook.target.sub p).normalize).smul (120 * dt)).length = 120 * dt := by
  have hlen : (hook.target.sub p).length ≠ 0 := by
    intro h0
    have : p.distanceTo hook.target = 0 := h0
    linarith [hdist, this]
  constructor
  · rw [hookSideStep_attached _ _ _ _ _ _ _ _ _ hst,
      attachedStep_far _ _ _ _ _ _ _ _ _ hdist]
    dsimp only
    rw [if_neg (not_lt.mpr hheight)]
    simp only [Bool.false_eq_true, if_false, Vec3.smul, List.cons.injEq, and_true]
    ext <;> dsimp only <;> ring
  · rw [Vec3.length_smul, Vec3.length_normalize _ hlen,
      abs_of_pos (mul_pos (by norm_num) dt_pos)]
    ring

/-- C4 witness: a single attached hook 5 units ahead at equal height pulls
with the constant impulse along the unit direction. -/
theorem reel_constant_pull_witness :
    (hookSideStep false false false ⟨0, 0, 0⟩ ⟨0, 0, 0⟩ ⟨0, 0, 0⟩ 1
        ⟨HookState.ATTACHED, false, true, true, ⟨0, 0, 5⟩, ⟨0, 0, 5⟩, 80⟩ ⟨0, 0, 0⟩).2.2 =
      [((Vec3.sub ⟨0, 0, 5⟩ ⟨0, 0, 0⟩).normalize).smul (120 * dt)] ∧
    (((Vec3.sub ⟨0, 0, 5⟩ ⟨0, 0, 0⟩).normalize).smul (120 * dt)).length = 120 * dt :=
  reel_constant_pull false false ⟨0, 0, 0⟩ ⟨0, 0, 0⟩ ⟨0, 0, 0⟩ 1
    ⟨HookState.ATTACHED, false, true, true, ⟨0, 0, 5⟩, ⟨0, 0, 5⟩, 80⟩ ⟨0, 0, 0⟩ rfl
    (by rw [distanceTo_eval (r := 5) (by norm_num) (by norm_num)]; norm_num)
    (by norm_num)

/-- C4 counterexample: the claim "the reel impulse has constant magnitude
120·dt not depending on the distance" is false.  With the target 10 straight
above, the applied impulse is (0, 25/12, 0) of magnitude 25/12 ≠ 120·dt = 2;
with the target 4 straight above (same direction, different distance) it is
(0, 61/30, 0) of a different magnitude — the upward boost makes the magnitude
distance-dependent. -/
theorem reel_boost_breaks_constancy :
    (hookSideStep false false false ⟨0, 0, 0⟩ ⟨0, 0, 0⟩ ⟨0, 0, 0⟩ 1
        ⟨HookState.ATTACHED, false, true, true, ⟨0, 10, 0⟩, ⟨0, 10, 0⟩, 80⟩ ⟨0, 0, 0⟩).2.2 =
      [(⟨0, 25 / 12, 0⟩ : Vec3)] ∧
    (hookSideStep false false false ⟨0, 0, 0⟩ ⟨0, 0, 0⟩ ⟨0, 0, 0⟩ 1
        ⟨HookState.ATTACHED, false, true, true, ⟨0, 4, 0⟩, ⟨0, 4, 0⟩, 80⟩ ⟨0, 0, 0⟩).2.2 =
      [(⟨0, 61 / 30, 0⟩ : Vec3)] ∧
    Vec3.length ⟨0, 25 / 12, 0⟩ = 25 / 12 ∧
    Vec3.length ⟨0, 61 / 30, 0⟩ = 61 / 30 ∧
    (25 / 12 : ℝ) ≠ 120 * dt ∧ (25 / 12 : ℝ) ≠ 61 / 30 := by
  have hsub10 : Vec3.sub ⟨(0 : ℝ), 10, 0⟩ ⟨0, 0, 0⟩ = ⟨0, 10, 0⟩ := by
    unfold Vec3.sub; norm_num
  have hsub4 : Vec3.sub ⟨(0 : ℝ), 4, 0⟩ ⟨0, 0, 0⟩ = ⟨0, 4, 0⟩ := by
    unfold Vec3.sub; norm_num
  have hl10 : Vec3.length ⟨(0 : ℝ), 10, 0⟩ = 10 := by
    unfold Vec3.length; apply sqrtEq <;> norm_num
  have hl4 : Vec3.length ⟨(0 : ℝ), 4, 0⟩ = 4 := by
    unfold Vec3.length; apply sqrtEq <;> norm_num
  have hd10 : Vec3.distanceTo ⟨(0 : ℝ), 0, 0⟩ ⟨0, 10, 0⟩ = 10 := by
    unfold Vec3.distanceTo; rw [hsub10, hl10]
  have hd4 : Vec3.distanceTo ⟨(0 : ℝ), 0, 0⟩ ⟨0, 4, 0⟩ = 4 := by
    unfold Vec3.distanceTo; rw [hsub4, hl4]
  refine ⟨?_, ?_, ?_, ?_, ?_, ?_⟩
  · rw [hookSideStep_attached _ _ _ _ _ _ _ _ _ rfl,
      attachedStep_far _ _ _ _ _ _ _ _ _ (by rw [hd10]; norm_num)]
    dsimp only
    rw [hsub10]
    unfold Vec3.normalize
    rw [hl10, if_neg (by norm_num : (10 : ℝ) ≠ 0)]
    unfold Vec3.smul
    norm_num [dt, min_def]
  · rw [hookSideStep_attached _ _ _ _ _ _ _ _ _ rfl,
      attachedStep_far _ _ _ _ _ _ _ _ _ (by rw [hd4]; norm_num)]
    dsimp only
    rw [hsub4]
    unfold Vec3.normalize
    rw [hl4, if_neg (by norm_num : (4 : ℝ) ≠ 0)]
    unfold Vec3.smul
    norm_num [dt, min_def]
  · unfold Vec3.length; apply sqrtEq <;> norm_num
  · unfold Vec3.length; apply sqrtEq <;> norm_num
  · norm_num [dt]
  · norm_num

/-! ## C1 — dual-hook averaging: bisector direction, but one impulse per hook -/

/-- The hook-physics block with both hooks ATTACHED beyond the threshold and
no upward boost: one bisector impulse per side. -/
theorem hooksStep_dual_far (isGrounded wL wR : Bool) (m : ℝ) (st : PlayerState)
    (hL : st.left.state = HookState.ATTACHED)
    (hR : st.right.state = HookState.ATTACHED)
    (hdL : 3 ≤ st.pos.distanceTo st.left.target)
    (hdR : 3 ≤ st.pos.distanceTo st.right.target)
    (hhL : st.left.target.y - st.pos.y ≤ 2)
    (hhR : st.right.target.y - st.pos.y ≤ 2) :
    (hooksStep isGrounded wL wR m st).2 =
      [(((st.left.target.sub st.pos).normalize.add
          ((st.right.target.sub st.pos).normalize)).normalize).smul (120 * dt),
       (((st.left.target.sub st.pos).normalize.add
          ((st.right.target.sub st.pos).normalize)).normalize).smul (120 * dt)] := by
  have hdec : decide (st.left.state = HookState.ATTACHED ∧
      st.right.state = HookState.ATTACHED) = true := by simp [hL, hR]
  unfold hooksStep
  rw [hdec]
  dsimp only
  rw [hookSideStep_attached _ _ _ _ _ _ _ _ _ hL,
    attachedStep_far _ _ _ _ _ _ _ _ _ hdL]
  dsimp only
  rw [if_neg (not_lt.mpr hhL)]
  rw [hookSideStep_attached _ _ _ _ _ _ _ _ _ hR,
    attachedStep_far _ _ _ _ _ _ _ _ _ hdR]
  dsimp only
  rw [if_neg (not_lt.mpr hhR)]
  simp only [List.cons_append, List.nil_append, List.cons.injEq, and_true]
  constructor <;> (unfold Vec3.smul; ext <;> simp only [if_true] <;> ring)

/-- C1 (amended): while both hooks are ATTACHED, both beyond the release
threshold, neither target more than 2 above the character and the two unit
direction vectors not cancelling, the per-hook loop applies the impulse
`(120·dt) ·` (normalized sum of the two unit target directions) — the bisector
— once for EACH hook: each impulse has magnitude `120·dt`, so the total
applied pull over the tick is twice a single hook's constant pull. -/
theorem dual_hook_bisector (isGrounded wL wR : Bool) (m : ℝ) (st : PlayerState)
    (hL : st.left.state = HookState.ATTACHED)
    (hR : st.right.state = HookState.ATTACHED)
    (hdL : 3 ≤ st.pos.distanceTo st.left.target)
    (hdR : 3 ≤ st.pos.distanceTo st.right.target)
    (hhL : st.left.target.y - st.pos.y ≤ 2)
    (hhR : st.right.target.y - st.pos.y ≤ 2)
    (hsum : ((st.left.target.sub st.pos).normalize.add
        ((st.right.target.sub st.pos).normalize)).length ≠ 0) :
    (hooksStep isGrounded wL wR m st).2 =
      [(((st.left.target.sub st.pos).normalize.add
          ((st.right.target.sub st.pos).normalize)).normalize).smul (120 * dt),
       (((st.left.target.sub st.pos).normalize.add
          ((st.right.target.sub st.pos).normalize)).normalize).smul (120 * dt)] ∧
    ((((st.left.target.sub st.pos).normalize.add
        ((st.right.target.sub st.pos).normalize)).normalize).smul (120 * dt)).length
      = 120 * dt ∧
    (((((st.left.target.sub st.pos).normalize.add
        ((st.right.target.sub st.pos).normalize)).normalize).smul (120 * dt)).add
      ((((st.left.target.sub st.pos).normalize.add
        ((st.right.target.sub st.pos).normalize)).normalize).smul (120 * dt))).length
      = 2 * (120 * dt) := by
  have hone : ((((st.left.target.sub st.pos).normalize.add
      ((st.right.target.sub st.pos).normalize)).normalize).smul (120 * dt)).length
      = 120 * dt := by
    rw [Vec3.length_smul, Vec3.length_normalize _ hsum,
      abs_of_pos (mul_pos (by norm_num) dt_pos)]
    ring
  refine ⟨hooksStep_dual_far isGrounded wL wR m st hL hR hdL hdR hhL hhR, hone, ?_⟩
  · have htwo : ((((st.left.target.sub st.pos).normalize.add
        ((st.right.target.sub st.pos).normalize)).normalize).smul (120 * dt)).add
        ((((st.left.target.sub st.pos).normalize.add
          ((st.right.target.sub st.pos).normalize)).normalize).smul (120 * dt))
        = ((((st.left.target.sub st.pos).normalize.add
          ((st.right.target.sub st.pos).normalize)).normalize).smul (120 * dt)).smul 2 := by
      unfold Vec3.add Vec3.smul
      ext <;> dsimp only <;> ring
    rw [htwo, Vec3.length_smul, hone, abs_of_pos (by norm_num : (0 : ℝ) < 2)]

/-- C1 witness: symmetric dual attach — targets (-3, 0, 4) and (3, 0, 4)
around the origin — applying `dual_hook_bisector` at a concrete state. -/
theorem dual_hook_bisector_witness :
    (hooksStep false false false 1
        ⟨⟨0, 0, 0⟩, ⟨0, 0, 0⟩,
          ⟨HookState.ATTACHED, false, true, true, ⟨-3, 0, 4⟩, ⟨-3, 0, 4⟩, 80⟩,
          ⟨HookState.ATTACHED, false, true, true, ⟨3, 0, 4⟩, ⟨3, 0, 4⟩, 80⟩,
          false, 0, ⟨0, 0, 0⟩⟩).2 =
      [(((Vec3.sub ⟨-3, 0, 4⟩ ⟨0, 0, 0⟩).normalize.add
          ((Vec3.sub ⟨3, 0, 4⟩ ⟨0, 0, 0⟩).normalize)).normalize).smul (120 * dt),
       (((Vec3.sub ⟨-3, 0, 4⟩ ⟨0, 0, 0⟩).normalize.add
          ((Vec3.sub ⟨3, 0, 4⟩ ⟨0, 0, 0⟩).normalize)).normalize).smul (120 * dt)] ∧
    ((((Vec3.sub ⟨-3, 0, 4⟩ ⟨0, 0, 0⟩).normalize.add
        ((Vec3.sub ⟨3, 0, 4⟩ ⟨0, 0, 0⟩).normalize)).normalize).smul (120 * dt)).length
      = 120 * dt := by
  have hsubL : Vec3.sub ⟨(-3 : ℝ), 0, 4⟩ ⟨0, 0, 0⟩ = ⟨-3, 0, 4⟩ := by
    unfold Vec3.sub; norm_num
  have hsubR : Vec3.sub ⟨(3 : ℝ), 0, 4⟩ ⟨0, 0, 0⟩ = ⟨3, 0, 4⟩ := by
    unfold Vec3.sub; norm_num
  have hlL : Vec3.length ⟨(-3 : ℝ), 0, 4⟩ = 5 := by
    unfold Vec3.length; apply sqrtEq <;> norm_num
  have hlR : Vec3.length ⟨(3 : ℝ), 0, 4⟩ = 5 := by
    unfold Vec3.length; apply sqrtEq <;> norm_num
  have hnL : Vec3.normalize ⟨(-3 : ℝ), 0, 4⟩ = ⟨-3 / 5, 0, 4 / 5⟩ := by
    unfold Vec3.normalize
    rw [hlL, if_neg (by norm_num : (5 : ℝ) ≠ 0)]
    unfold Vec3.smul; norm_num
  have hnR : Vec3.normalize ⟨(3 : ℝ), 0, 4⟩ = ⟨3 / 5, 0, 4 / 5⟩ := by
    unfold Vec3.normalize
    rw [hlR, if_neg (by norm_num : (5 : ℝ) ≠ 0)]
    unfold Vec3.smul; norm_num
  have hadd : Vec3.add ⟨(-3 / 5 : ℝ), 0, 4 / 5⟩ ⟨3 / 5, 0, 4 / 5⟩ = ⟨0, 0, 8 / 5⟩ := by
    unfold Vec3.add; norm_num
  have hl8 : Vec3.length ⟨(0 : ℝ), 0, 8 / 5⟩ = 8 / 5 := by
    unfold Vec3.length; apply sqrtEq <;> norm_num
  have hsum : ((Vec3.sub ⟨(-3 : ℝ), 0, 4⟩ ⟨0, 0, 0⟩).normalize.add
      ((Vec3.sub ⟨(3 : ℝ), 0, 4⟩ ⟨0, 0, 0⟩).normalize)).length ≠ 0 := by
    rw [hsubL, hsubR, hnL, hnR, hadd, hl8]; norm_num
  have h := dual_hook_bisector false false false 1
    ⟨⟨0, 0, 0⟩, ⟨0, 0, 0⟩,
      ⟨HookState.ATTACHED, false, true, true, ⟨-3, 0, 4⟩, ⟨-3, 0, 4⟩, 80⟩,
      ⟨HookState.ATTACHED, false, true, true, ⟨3, 0, 4⟩, ⟨3, 0, 4⟩, 80⟩,
      false, 0, ⟨0, 0, 0⟩⟩ rfl rfl
    (by rw [distanceTo_eval (r := 5) (by norm_num) (by norm_num)]; norm_num)
    (by rw [distanceTo_eval (r := 5) (by norm_num) (by norm_num)]; norm_num)
    (by norm_num) (by norm_num) hsum
  exact ⟨h.1, h.2.1⟩

/-- C1 counterexample: the claim "the total applied pull magnitude equals that
of a single hook's constant pull" is false.  In the symmetric dual attach the
loop applies the bisector impulse (0, 0, 2) once per hook; the total (0, 0, 4)
has magnitude 4 = 2·(120·dt) ≠ 120·dt. -/
theorem dual_hook_force_doubled :
    (hooksStep false false false 1
        ⟨⟨0, 0, 0⟩, ⟨0, 0, 0⟩,
          ⟨HookState.ATTACHED, false, true, true, ⟨-3, 0, 4⟩, ⟨-3, 0, 4⟩, 80⟩,
          ⟨HookState.ATTACHED, false, true, true, ⟨3, 0, 4⟩, ⟨3, 0, 4⟩, 80⟩,
          false, 0, ⟨0, 0, 0⟩⟩).2 = [(⟨0, 0, 2⟩ : Vec3), ⟨0, 0, 2⟩] ∧
    (Vec3.add ⟨0, 0, 2⟩ ⟨0, 0, 2⟩).length = 4 ∧ ((4 : ℝ) ≠ 120 * dt) := by
  have hsubL : Vec3.sub ⟨(-3 : ℝ), 0, 4⟩ ⟨0, 0, 0⟩ = ⟨-3, 0, 4⟩ := by
    unfold Vec3.sub; norm_num
  have hsubR : Vec3.sub ⟨(3 : ℝ), 0, 4⟩ ⟨0, 0, 0⟩ = ⟨3, 0, 4⟩ := by
    unfold Vec3.sub; norm_num
  have hlL : Vec3.length ⟨(-3 : ℝ), 0, 4⟩ = 5 := by
    unfold Vec3.length; apply sqrtEq <;> norm_num
  have hlR : Vec3.length ⟨(3 : ℝ), 0, 4⟩ = 5 := by
    unfold Vec3.length; apply sqrtEq <;> norm_num
  have hnL : Vec3.normalize ⟨(-3 : ℝ), 0, 4⟩ = ⟨-3 / 5, 0, 4 / 5⟩ := by
    unfold Vec3.normalize
    rw [hlL, if_neg (by norm_num : (5 : ℝ) ≠ 0)]
    unfold Vec3.smul; norm_num
  have hnR : Vec3.normalize ⟨(3 : ℝ), 0, 4⟩ = ⟨3 / 5, 0, 4 / 5⟩ := by
    unfold Vec3.normalize
    rw [hlR, if_neg (by norm_num : (5 : ℝ) ≠ 0)]
    unfold Vec3.smul; norm_num
  have hadd : Vec3.add ⟨(-3 / 5 : ℝ), 0, 4 / 5⟩ ⟨3 / 5, 0, 4 / 5⟩ = ⟨0, 0, 8 / 5⟩ := by
    unfold Vec3.add; norm_num
  have hl8 : Vec3.length ⟨(0 : ℝ), 0, 8 / 5⟩ = 8 / 5 := by
    unfold Vec3.length; apply sqrtEq <;> norm_num
  have hn8 : Vec3.normalize ⟨(0 : ℝ), 0, 8 / 5⟩ = ⟨0, 0, 1⟩ := by
    unfold Vec3.normalize
    rw [hl8, if_neg (by norm_num : (8 / 5 : ℝ) ≠ 0)]
    unfold Vec3.smul; norm_num
  refine ⟨?_, ?_, ?_⟩
  · rw [hooksStep_dual_far false false false 1 _ rfl rfl
      (by rw [distanceTo_eval (r := 5) (by norm_num) (by norm_num)]; norm_num)
      (by rw [distanceTo_eval (r := 5) (by norm_num) (by norm_num)]; norm_num)
      (by norm_num) (by norm_num)]
    dsimp only
    rw [hsubL, hsubR, hnL, hnR]
    rw [show Vec3.add ⟨(-3 / 5 : ℝ), 0, 4 / 5⟩ ⟨3 / 5, 0, 4 / 5⟩ = ⟨0, 0, 8 / 5⟩ from hadd,
      hn8]
    unfold Vec3.smul dt
    norm_num
  · unfold Vec3.add
    norm_num
    unfold Vec3.length; apply sqrtEq <;> norm_num
  · unfold dt; norm_num

/-! ## C2 — SHOOTING travel reaches the target in exactly ⌈D/(S·dt)⌉ ticks -/

/-- Moving a distance `a` along the unit vector from `p` toward `t` shortens
the distance to `t` by exactly `a`, as long as the move does not overshoot. -/
theorem dist_advance (p t : Vec3) (a : ℝ) (ha : 0 < a)
    (hlt : a < p.distanceTo t) :
    (p.add (((t.sub p).normalize).smul a)).distanceTo t = p.distanceTo t - a := by
  have hlt' : a < (t.sub p).length := hlt
  have hdpos : 0 < (t.sub p).length := lt_trans ha hlt'
  have hne : (t.sub p).length ≠ 0 := ne_of_gt hdpos
  have hnorm : (t.sub p).normalize = (t.sub p).smul (1 / (t.sub p).length) := by
    unfold Vec3.normalize
    rw [if_neg hne]
  have hsub : Vec3.sub t (p.add (((t.sub p).smul (1 / (t.sub p).length)).smul a))
      = (t.sub p).smul (1 - a / (t.sub p).length) := by
    unfold Vec3.sub Vec3.add Vec3.smul
    ext <;> dsimp only <;> ring
  show (Vec3.sub t (p.add (((t.sub p).normalize).smul a))).length
      = (Vec3.sub t p).length - a
  rw [hnorm, hsub, Vec3.length_smul, abs_of_nonneg (by
    have hf : a / (t.sub p).length < 1 := (div_lt_one hdpos).mpr hlt'
    linarith)]
  field_simp

/-- On a SHOOTING hook, the per-tick projection is the SHOOTING advance. -/
theorem hookTickPure_shooting (g : Hook) (hg : g.state = HookState.SHOOTING) :
    hookTickPure g = shootingAdvance g := by
  unfold hookTickPure
  rw [hg]

/-- Invariant of the SHOOTING travel: while `k` ticks of travel have not yet
covered the initial remaining distance, the hook is still SHOOTING with target
and speed untouched, and the remaining distance is exactly the initial one
minus `k · shootSpeed · dt`. -/
theorem shooting_iter_invariant (h : Hook) (hst : h.state = HookState.SHOOTING)
    (hS : 0 < h.shootSpeed) (k : ℕ)
    (hk : (k : ℝ) * (h.shootSpeed * dt) < h.currentPos.distanceTo h.target) :
    (hookTickPure^[k] h).state = HookState.SHOOTING ∧
    (hookTickPure^[k] h).target = h.target ∧
    (hookTickPure^[k] h).shootSpeed = h.shootSpeed ∧
    (hookTickPure^[k] h).currentPos.distanceTo h.target
      = h.currentPos.distanceTo h.target - k * (h.shootSpeed * dt) := by
  have hsdt : 0 < h.shootSpeed * dt := mul_pos hS dt_pos
  induction k with
  | zero =>
    refine ⟨hst, rfl, rfl, by norm_num⟩
  | succ n ih =>
    have hn : (n : ℝ) * (h.shootSpeed * dt) < h.currentPos.distanceTo h.target := by
      have h1 : (n : ℝ) * (h.shootSpeed * dt) < ((n : ℝ) + 1) * (h.shootSpeed * dt) := by
        nlinarith
      have h2 : ((n : ℝ) + 1) * (h.shootSpeed * dt)
          < h.currentPos.distanceTo h.target := by
        have := hk
        push_cast at this
        linarith
      linarith
    obtain ⟨ihs, iht, ihS, ihd⟩ := ih hn
    rw [Function.iterate_succ_apply', hookTickPure_shooting _ ihs]
    have hdistg : (hookTickPure^[n] h).currentPos.distanceTo (hookTickPure^[n] h).target
        = h.currentPos.distanceTo h.target - n * (h.shootSpeed * dt) := by
      rw [iht, ihd]
    have hcond : ¬((hookTickPure^[n] h).currentPos.distanceTo (hookTickPure^[n] h).target
        ≤ (hookTickPure^[n] h).shootSpeed * dt) := by
      rw [hdistg, ihS]
      push_cast at hk
      intro hle
      nlinarith
    unfold shootingAdvance
    rw [if_neg hcond]
    refine ⟨ihs, iht, ihS, ?_⟩
    have hadv := dist_advance (hookTickPure^[n] h).currentPos h.target
      (h.shootSpeed * dt) hsdt (by
        rw [ihd]
        push_cast at hk
        nlinarith)
    rw [iht, ihS]
    rw [hadv, ihd]
    push_cast
    ring

/-- C2: a hook shot whose tip starts at remaining straight-line distance
`D > 0` from the hit point, with shoot speed `S > 0`, transitions
SHOOTING → ATTACHED after exactly `⌈D / (S·dt)⌉` ticks, at which tick
`currentPos` equals `target` exactly; at every earlier tick it is still
SHOOTING and the remaining distance is exactly `D − k·S·dt > 0` — the tip
never moves past the target. -/
theorem shooting_attach_ceil (h : Hook) (hst : h.state = HookState.SHOOTING)
    (hD : 0 < h.currentPos.distanceTo h.target) (hS : 0 < h.shootSpeed) :
    (∀ k, k < ⌈h.currentPos.distanceTo h.target / (h.shootSpeed * dt)⌉₊ →
      (hookTickPure^[k] h).state = HookState.SHOOTING ∧
      (hookTickPure^[k] h).currentPos.distanceTo h.target
        = h.currentPos.distanceTo h.target - k * (h.shootSpeed * dt) ∧
      0 < (hookTickPure^[k] h).currentPos.distanceTo h.target) ∧
    (hookTickPure^[⌈h.currentPos.distanceTo h.target / (h.shootSpeed * dt)⌉₊] h).state
      = HookState.ATTACHED ∧
    (hookTickPure^[⌈h.currentPos.distanceTo h.target / (h.shootSpeed * dt)⌉₊] h).currentPos
      = h.target := by
  have hsdt : 0 < h.shootSpeed * dt := mul_pos hS dt_pos
  have hklt : ∀ k : ℕ, k < ⌈h.currentPos.distanceTo h.target / (h.shootSpeed * dt)⌉₊ →
      (k : ℝ) * (h.shootSpeed * dt) < h.currentPos.distanceTo h.target := by
    intro k hkn
    have h1 : (k : ℝ) < h.currentPos.distanceTo h.target / (h.shootSpeed * dt) :=
      Nat.lt_ceil.mp hkn
    calc (k : ℝ) * (h.shootSpeed * dt)
        < (h.currentPos.distanceTo h.target / (h.shootSpeed * dt)) * (h.shootSpeed * dt) :=
          mul_lt_mul_of_pos_right h1 hsdt
      _ = h.currentPos.distanceTo h.target := by field_simp
  refine ⟨?_, ?_⟩
  · intro k hkn
    obtain ⟨h1, _, _, h4⟩ := shooting_iter_invariant h hst hS k (hklt k hkn)
    refine ⟨h1, h4, ?_⟩
    rw [h4]
    have := hklt k hkn
    linarith
  · have hnpos : 0 < ⌈h.currentPos.distanceTo h.target / (h.shootSpeed * dt)⌉₊ :=
      Nat.ceil_pos.mpr (div_pos hD hsdt)
    obtain ⟨m, hm⟩ := Nat.exists_eq_succ_of_ne_zero (Nat.pos_iff_ne_zero.mp hnpos)
    have hmlt : (m : ℝ) * (h.shootSpeed * dt) < h.currentPos.distanceTo h.target :=
      hklt m (by omega)
    obtain ⟨h1, h2, h3, h4⟩ := shooting_iter_invariant h hst hS m hmlt
    have hceil_le : h.currentPos.distanceTo h.target / (h.shootSpeed * dt)
        ≤ (⌈h.currentPos.distanceTo h.target / (h.shootSpeed * dt)⌉₊ : ℝ) :=
      Nat.le_ceil _
    have hDle : h.currentPos.distanceTo h.target
        ≤ ((m : ℝ) + 1) * (h.shootSpeed * dt) := by
      have := mul_le_mul_of_nonneg_right hceil_le (le_of_lt hsdt)
      rw [div_mul_cancel₀ _ (ne_of_gt hsdt)] at this
      calc h.currentPos.distanceTo h.target
          ≤ (⌈h.currentPos.distanceTo h.target / (h.shootSpeed * dt)⌉₊ : ℝ)
              * (h.shootSpeed * dt) := this
        _ = ((m : ℝ) + 1) * (h.shootSpeed * dt) := by rw [hm]; push_cast; ring
    rw [hm, Function.iterate_succ_apply', hookTickPure_shooting _ h1]
    have hcond : (hookTickPure^[m] h).currentPos.distanceTo (hookTickPure^[m] h).target
        ≤ (hookTickPure^[m] h).shootSpeed * dt := by
      rw [h2, h3, h4]
      linarith
    unfold shootingAdvance
    rw [if_pos hcond]
    exact ⟨rfl, h2⟩

/-- C2 witness: a hook shot from the origin at a hit point 4 units away with
shoot speed 80 (travel 4/3 per tick) is still SHOOTING after 2 ticks and
attaches exactly on tick 3 = ⌈4 / (80·dt)⌉, landing on the target. -/
theorem shooting_attach_ceil_witness :
    (hookTickPure^[2]
        (⟨HookState.SHOOTING, false, true, true, ⟨0, 0, 4⟩, ⟨0, 0, 0⟩, 80⟩ : Hook)).state
      = HookState.SHOOTING ∧
    (hookTickPure^[3]
        (⟨HookState.SHOOTING, false, true, true, ⟨0, 0, 4⟩, ⟨0, 0, 0⟩, 80⟩ : Hook)).state
      = HookState.ATTACHED ∧
    (hookTickPure^[3]
        (⟨HookState.SHOOTING, false, true, true, ⟨0, 0, 4⟩, ⟨0, 0, 0⟩, 80⟩ : Hook)).currentPos
      = ⟨0, 0, 4⟩ := by
  have hd : Vec3.distanceTo ⟨(0 : ℝ), 0, 0⟩ ⟨0, 0, 4⟩ = 4 :=
    distanceTo_eval (r := 4) (by norm_num) (by norm_num)
  have h := shooting_attach_ceil
    ⟨HookState.SHOOTING, false, true, true, ⟨0, 0, 4⟩, ⟨0, 0, 0⟩, 80⟩ rfl
    (by dsimp only; rw [hd]; norm_num) (by norm_num)
  dsimp only at h
  rw [hd] at h
  rw [show (4 : ℝ) / (80 * dt) = 3 by unfold dt; norm_num] at h
  rw [show ⌈(3 : ℝ)⌉₊ = 3 by norm_num] at h
  exact ⟨(h.1 2 (by norm_num)).1, h.2.1, h.2.2⟩

/-! ## Frame lemmas for the update pipeline -/

theorem clearHook_state (x : Hook) : (clearHook x).state = HookState.IDLE := by
  unfold clearHook
  by_cases h : x.state = HookState.IDLE <;> simp [h]

theorem moveStep_hooks (k : Keys) (c : Vec3) (st : PlayerState) :
    (moveStep k c st).left = st.left ∧ (moveStep k c st).right = st.right ∧
    (moveStep k c st).prevVelocity = st.prevVelocity ∧
    (moveStep k c st).prevSpace = st.prevSpace ∧ (moveStep k c st).pos = st.pos := by
  unfold moveStep
  dsimp only
  repeat' split
  all_goals exact ⟨rfl, rfl, rfl, rfl, rfl⟩

theorem jumpStep_hooks (k : Keys) (g : Bool) (st : PlayerState) :
    (jumpStep k g st).left = st.left ∧ (jumpStep k g st).right = st.right ∧
    (jumpStep k g st).prevVelocity = st.prevVelocity ∧
    (jumpStep k g st).pos = st.pos := by
  unfold jumpStep
  dsimp only
  repeat' split
  all_goals exact ⟨rfl, rfl, rfl, rfl⟩

theorem boostStep_hooks (k : Keys) (env : Env) (st : PlayerState) :
    (boostStep k env st).left = st.left ∧ (boostStep k env st).right = st.right ∧
    (boostStep k env st).prevVelocity = st.prevVelocity ∧
    (boostStep k env st).pos = st.pos := by
  unfold boostStep
  split
  · exact ⟨rfl, rfl, rfl, rfl⟩
  · exact ⟨rfl, rfl, rfl, rfl⟩

theorem antiGravityStep_hooks (st : PlayerState) :
    (antiGravityStep st).left = st.left ∧ (antiGravityStep st).right = st.right ∧
    (antiGravityStep st).pos = st.pos := by
  unfold antiGravityStep
  dsimp only
  split
  · exact ⟨rfl, rfl, rfl⟩
  · exact ⟨rfl, rfl, rfl⟩

theorem wallDetachStep_fires (linvel0 : Vec3) (st : PlayerState)
    (hH : st.left.state = HookState.ATTACHED ∨ st.right.state = HookState.ATTACHED)
    (hfast : 5 < st.prevVelocity.length)
    (hdrop : 8 < st.prevVelocity.length - linvel0.length) :
    (wallDetachStep linvel0 st).left = clearHook st.left ∧
    (wallDetachStep linvel0 st).right = clearHook st.right := by
  unfold wallDetachStep
  dsimp only
  rw [if_pos ⟨hH, hfast, hdrop⟩]
  exact ⟨rfl, rfl⟩

theorem hooksStep_idle (g wl wr : Bool) (m : ℝ) (st : PlayerState)
    (hL : st.left.state = HookState.IDLE) (hR : st.right.state = HookState.IDLE) :
    hooksStep g wl wr m st = (st, []) := by
  unfold hooksStep hookSideStep
  rw [hL, hR]
  dsimp only
  rfl

theorem jumpCancelStep_idle (k : Keys) (st : PlayerState)
    (hL : st.left.state = HookState.IDLE) (hR : st.right.state = HookState.IDLE) :
    jumpCancelStep k st = st := by
  unfold jumpCancelStep
  by_cases hc : k.space = true ∧ st.prevSpace = false
  · rw [if_pos hc, if_neg (by simp [hL, hR])]
  · rw [if_neg hc]

/-- `update` written with its let-chain expanded. -/
theorem update_eq (env : Env) (k : Keys) (st : PlayerState) :
    update env k st =
      (jumpCancelStep k (hooksStep (groundedCheck env.groundToi
          (moveStep k env.camDir st).vel.y) env.wallHitLeft env.wallHitRight env.invMass
          (antiGravityStep (wallDetachStep st.vel (boostStep k env (jumpStep k
            (groundedCheck env.groundToi (moveStep k env.camDir st).vel.y)
            (moveStep k env.camDir st)))))).1,
        (hooksStep (groundedCheck env.groundToi (moveStep k env.camDir st).vel.y)
          env.wallHitLeft env.wallHitRight env.invMass
          (antiGravityStep (wallDetachStep st.vel (boostStep k env (jumpStep k
            (groundedCheck env.groundToi (moveStep k env.camDir st).vel.y)
            (moveStep k env.camDir st)))))).2) := rfl

/-! ## C10 — implicit wall-impact auto-detach -/

/-- The pipeline from movement to hook physics clears both hooks and applies
no hook impulse when the wall-impact condition holds at frame start. -/
theorem detach_pipeline (env : Env) (k : Keys) (g : Bool) (st : PlayerState)
    (hH : st.left.state = HookState.ATTACHED ∨ st.right.state = HookState.ATTACHED)
    (hfast : 5 < st.prevVelocity.length)
    (hdrop : 8 < st.prevVelocity.length - st.vel.length) :
    (hooksStep g env.wallHitLeft env.wallHitRight env.invMass
        (antiGravityStep (wallDetachStep st.vel
          (boostStep k env (jumpStep k g (moveStep k env.camDir st)))))).1.left.state
      = HookState.IDLE ∧
    (hooksStep g env.wallHitLeft env.wallHitRight env.invMass
        (antiGravityStep (wallDetachStep st.vel
          (boostStep k env (jumpStep k g (moveStep k env.camDir st)))))).1.right.state
      = HookState.IDLE ∧
    (hooksStep g env.wallHitLeft env.wallHitRight env.invMass
        (antiGravityStep (wallDetachStep st.vel
          (boostStep k env (jumpStep k g (moveStep k env.camDir st)))))).2 = [] := by
  obtain ⟨a1, a2, a3, -, -⟩ := moveStep_hooks k env.camDir st
  obtain ⟨b1, b2, b3, -⟩ := jumpStep_hooks k g (moveStep k env.camDir st)
  obtain ⟨c1, c2, c3, -⟩ :=
    boostStep_hooks k env (jumpStep k g (moveStep k env.camDir st))
  have hL3 : (boostStep k env (jumpStep k g (moveStep k env.camDir st))).left
      = st.left := by rw [c1, b1, a1]
  have hR3 : (boostStep k env (jumpStep k g (moveStep k env.camDir st))).right
      = st.right := by rw [c2, b2, a2]
  have hPV3 : (boostStep k env (jumpStep k g (moveStep k env.camDir st))).prevVelocity
      = st.prevVelocity := by rw [c3, b3, a3]
  obtain ⟨w1, w2⟩ := wallDetachStep_fires st.vel
    (boostStep k env (jumpStep k g (moveStep k env.camDir st)))
    (by rw [hL3, hR3]; exact hH) (by rw [hPV3]; exact hfast) (by rw [hPV3]; exact hdrop)
  obtain ⟨g1, g2, -⟩ := antiGravityStep_hooks (wallDetachStep st.vel
    (boostStep k env (jumpStep k g (moveStep k env.camDir st))))
  have hL5 : (antiGravityStep (wallDetachStep st.vel
      (boostStep k env (jumpStep k g (moveStep k env.camDir st))))).left.state
      = HookState.IDLE := by rw [g1, w1]; exact clearHook_state _
  have hR5 : (antiGravityStep (wallDetachStep st.vel
      (boostStep k env (jumpStep k g (moveStep k env.camDir st))))).right.state
      = HookState.IDLE := by rw [g2, w2]; exact clearHook_state _
  rw [hooksStep_idle g env.wallHitLeft env.wallHitRight env.invMass _ hL5 hR5]
  exact ⟨hL5, hR5, rfl⟩

/-- C10: on any frame where some hook is ATTACHED, the previous frame's speed
exceeded 5, and the captured speed has dropped by more than 8, `update` clears
both hooks before the hook-physics loop runs: both hooks end the frame IDLE
and no reel (or attach) impulse is applied that frame. -/
theorem wall_impact_detach (env : Env) (k : Keys) (st : PlayerState)
    (hH : st.left.state = HookState.ATTACHED ∨ st.right.state = HookState.ATTACHED)
    (hfast : 5 < st.prevVelocity.length)
    (hdrop : 8 < st.prevVelocity.length - st.vel.length) :
    (update env k st).1.left.state = HookState.IDLE ∧
    (update env k st).1.right.state = HookState.IDLE ∧
    (update env k st).2 = [] := by
  have hcore := detach_pipeline env k
    (groundedCheck env.groundToi (moveStep k env.camDir st).vel.y) st hH hfast hdrop
  have hnoop := jumpCancelStep_idle k _ hcore.1 hcore.2.1
  rw [update_eq]
  dsimp only
  rw [hnoop]
  exact ⟨hcore.1, hcore.2.1, hcore.2.2⟩

/-! ## C3 — the jump-cancel block is unreachable

The source's jump block ends with `this.prevSpace = true` whenever space is
held, and the jump-cancel block at the end of the same `update` then tests
`this.keys.space && !this.prevSpace`, which at that point is always false: a
key-down edge with a non-IDLE hook does NOT clear the hooks and does NOT add
the +10 vertical boost. -/

/-- The jump-cancel block is a no-op whenever the latch is already set. -/
theorem jumpCancelStep_held (k : Keys) (st : PlayerState) (hp : st.prevSpace = true) :
    jumpCancelStep k st = st := by
  unfold jumpCancelStep
  rw [if_neg (by simp [hp])]

/-- C3 (code bug witness): a full `update` on a key-down-edge space frame with
the left hook SHOOTING 40 units from its target, airborne, at rest: the claim
expects both hooks cleared to IDLE and vertical velocity +10, but the left
hook is still SHOOTING after the frame and the vertical velocity is 0 — the
jump block set the latch before the jump-cancel block read it. -/
theorem jump_cancel_never_fires :
    ((update ⟨⟨0, 0, -1⟩, none, false, false, 1⟩
        ⟨false, false, false, false, true, false, false⟩
        ⟨⟨0, 0, 0⟩, ⟨0, 0, 0⟩,
          ⟨HookState.SHOOTING, false, true, true, ⟨0, 0, 50⟩, ⟨0, 0, 10⟩, 80⟩,
          ⟨HookState.IDLE, false, false, false, ⟨0, 0, 0⟩, ⟨0, 0, 0⟩, 80⟩,
          false, 0, ⟨0, 0, 0⟩⟩).1.left.state = HookState.SHOOTING) ∧
    ((update ⟨⟨0, 0, -1⟩, none, false, false, 1⟩
        ⟨false, false, false, false, true, false, false⟩
        ⟨⟨0, 0, 0⟩, ⟨0, 0, 0⟩,
          ⟨HookState.SHOOTING, false, true, true, ⟨0, 0, 50⟩, ⟨0, 0, 10⟩, 80⟩,
          ⟨HookState.IDLE, false, false, false, ⟨0, 0, 0⟩, ⟨0, 0, 0⟩, 80⟩,
          false, 0, ⟨0, 0, 0⟩⟩).1.vel.y = 0) := by
  have hd40 : Vec3.distanceTo ⟨(0 : ℝ), 0, 10⟩ ⟨0, 0, 50⟩ = 40 :=
    distanceTo_eval (r := 40) (by norm_num) (by norm_num)
  have hc40 : ¬(Vec3.distanceTo ⟨(0 : ℝ), 0, 10⟩ ⟨0, 0, 50⟩ ≤ (80 : ℝ) * dt) := by
    rw [hd40]
    unfold dt
    norm_num
  have hshoot : (shootingAdvance
      ⟨HookState.SHOOTING, false, true, true, ⟨0, 0, 50⟩, ⟨0, 0, 10⟩, 80⟩).state
      = HookState.SHOOTING := by
    unfold shootingAdvance
    dsimp only
    rw [if_neg hc40]
  have e1 : moveStep ⟨false, false, false, false, true, false, false⟩ ⟨0, 0, -1⟩
      ⟨⟨0, 0, 0⟩, ⟨0, 0, 0⟩,
        ⟨HookState.SHOOTING, false, true, true, ⟨0, 0, 50⟩, ⟨0, 0, 10⟩, 80⟩,
        ⟨HookState.IDLE, false, false, false, ⟨0, 0, 0⟩, ⟨0, 0, 0⟩, 80⟩,
        false, 0, ⟨0, 0, 0⟩⟩ =
      ⟨⟨0, 0, 0⟩, ⟨0, 0, 0⟩,
        ⟨HookState.SHOOTING, false, true, true, ⟨0, 0, 50⟩, ⟨0, 0, 10⟩, 80⟩,
        ⟨HookState.IDLE, false, false, false, ⟨0, 0, 0⟩, ⟨0, 0, 0⟩, 80⟩,
        false, 0, ⟨0, 0, 0⟩⟩ := by
    unfold moveStep
    norm_num [Vec3.length, Real.sqrt_zero]
  have e3 : jumpStep ⟨false, false, false, false, true, false, false⟩ false
      ⟨⟨0, 0, 0⟩, ⟨0, 0, 0⟩,
        ⟨HookState.SHOOTING, false, true, true, ⟨0, 0, 50⟩, ⟨0, 0, 10⟩, 80⟩,
        ⟨HookState.IDLE, false, false, false, ⟨0, 0, 0⟩, ⟨0, 0, 0⟩, 80⟩,
        false, 0, ⟨0, 0, 0⟩⟩ =
      ⟨⟨0, 0, 0⟩, ⟨0, 0, 0⟩,
        ⟨HookState.SHOOTING, false, true, true, ⟨0, 0, 50⟩, ⟨0, 0, 10⟩, 80⟩,
        ⟨HookState.IDLE, false, false, false, ⟨0, 0, 0⟩, ⟨0, 0, 0⟩, 80⟩,
        true, 0, ⟨0, 0, 0⟩⟩ := by
    unfold jumpStep
    norm_num
  have e4 : boostStep ⟨false, false, false, false, true, false, false⟩
      ⟨⟨0, 0, -1⟩, none, false, false, 1⟩
      ⟨⟨0, 0, 0⟩, ⟨0, 0, 0⟩,
        ⟨HookState.SHOOTING, false, true, true, ⟨0, 0, 50⟩, ⟨0, 0, 10⟩, 80⟩,
        ⟨HookState.IDLE, false, false, false, ⟨0, 0, 0⟩, ⟨0, 0, 0⟩, 80⟩,
        true, 0, ⟨0, 0, 0⟩⟩ =
      ⟨⟨0, 0, 0⟩, ⟨0, 0, 0⟩,
        ⟨HookState.SHOOTING, false, true, true, ⟨0, 0, 50⟩, ⟨0, 0, 10⟩, 80⟩,
        ⟨HookState.IDLE, false, false, false, ⟨0, 0, 0⟩, ⟨0, 0, 0⟩, 80⟩,
        true, 0, ⟨0, 0, 0⟩⟩ := by
    unfold boostStep
    norm_num
  have e5 : wallDetachStep ⟨0, 0, 0⟩
      ⟨⟨0, 0, 0⟩, ⟨0, 0, 0⟩,
        ⟨HookState.SHOOTING, false, true, true, ⟨0, 0, 50⟩, ⟨0, 0, 10⟩, 80⟩,
        ⟨HookState.IDLE, false, false, false, ⟨0, 0, 0⟩, ⟨0, 0, 0⟩, 80⟩,
        true, 0, ⟨0, 0, 0⟩⟩ =
      ⟨⟨0, 0, 0⟩, ⟨0, 0, 0⟩,
        ⟨HookState.SHOOTING, false, true, true, ⟨0, 0, 50⟩, ⟨0, 0, 10⟩, 80⟩,
        ⟨HookState.IDLE, false, false, false, ⟨0, 0, 0⟩, ⟨0, 0, 0⟩, 80⟩,
        true, 0, ⟨0, 0, 0⟩⟩ := by
    unfold wallDetachStep
    dsimp only
    rw [if_neg (by simp)]
  have e6 : antiGravityStep
      ⟨⟨0, 0, 0⟩, ⟨0, 0, 0⟩,
        ⟨HookState.SHOOTING, false, true, true, ⟨0, 0, 50⟩, ⟨0, 0, 10⟩, 80⟩,
        ⟨HookState.IDLE, false, false, false, ⟨0, 0, 0⟩, ⟨0, 0, 0⟩, 80⟩,
        true, 0, ⟨0, 0, 0⟩⟩ =
      ⟨⟨0, 0, 0⟩, ⟨0, 0, 0⟩,
        ⟨HookState.SHOOTING, false, true, true, ⟨0, 0, 50⟩, ⟨0, 0, 10⟩, 80⟩,
        ⟨HookState.IDLE, false, false, false, ⟨0, 0, 0⟩, ⟨0, 0, 0⟩, 80⟩,
        true, 0, ⟨0, 0, 0⟩⟩ := by
    unfold antiGravityStep
    dsimp only
    rw [if_neg (by norm_num)]
  have hhooks : hooksStep false false false 1
      ⟨⟨0, 0, 0⟩, ⟨0, 0, 0⟩,
        ⟨HookState.SHOOTING, false, true, true, ⟨0, 0, 50⟩, ⟨0, 0, 10⟩, 80⟩,
        ⟨HookState.IDLE, false, false, false, ⟨0, 0, 0⟩, ⟨0, 0, 0⟩, 80⟩,
        true, 0, ⟨0, 0, 0⟩⟩ =
      (⟨⟨0, 0, 0⟩, ⟨0, 0, 0⟩,
        shootingAdvance ⟨HookState.SHOOTING, false, true, true, ⟨0, 0, 50⟩, ⟨0, 0, 10⟩, 80⟩,
        ⟨HookState.IDLE, false, false, false, ⟨0, 0, 0⟩, ⟨0, 0, 0⟩, 80⟩,
        true, 0, ⟨0, 0, 0⟩⟩, []) := by
    unfold hooksStep hookSideStep
    dsimp only
    unfold shootingStep
    rw [if_neg hc40]
    dsimp only
    rfl
  rw [update_eq]
  dsimp only
  rw [e1]
  dsimp only
  rw [show groundedCheck none (0 : ℝ) = false from rfl]
  rw [e3, e4, e5, e6, hhooks]
  dsimp only
  rw [jumpCancelStep_held _ _ rfl]
  exact ⟨hshoot, rfl⟩

/-- C10 witness: left hook attached, previous speed 10, captured speed 1
(drop 9 > 8): the frame ends with both hooks IDLE and no hook impulse. -/
theorem wall_impact_detach_witness :
    ((update ⟨⟨0, 0, -1⟩, none, false, false, 1⟩
        ⟨false, false, false, false, false, false, false⟩
        ⟨⟨0, 0, 0⟩, ⟨0, 0, 1⟩,
          ⟨HookState.ATTACHED, false, true, true, ⟨0, 0, 50⟩, ⟨0, 0, 50⟩, 80⟩,
          ⟨HookState.IDLE, false, false, false, ⟨0, 0, 0⟩, ⟨0, 0, 0⟩, 80⟩,
          false, 0, ⟨0, 0, 10⟩⟩).1.left.state = HookState.IDLE) ∧
    ((update ⟨⟨0, 0, -1⟩, none, false, false, 1⟩
        ⟨false, false, false, false, false, false, false⟩
        ⟨⟨0, 0, 0⟩, ⟨0, 0, 1⟩,
          ⟨HookState.ATTACHED, false, true, true, ⟨0, 0, 50⟩, ⟨0, 0, 50⟩, 80⟩,
          ⟨HookState.IDLE, false, false, false, ⟨0, 0, 0⟩, ⟨0, 0, 0⟩, 80⟩,
          false, 0, ⟨0, 0, 10⟩⟩).1.right.state = HookState.IDLE) ∧
    ((update ⟨⟨0, 0, -1⟩, none, false, false, 1⟩
        ⟨false, false, false, false, false, false, false⟩
        ⟨⟨0, 0, 0⟩, ⟨0, 0, 1⟩,
          ⟨HookState.ATTACHED, false, true, true, ⟨0, 0, 50⟩, ⟨0, 0, 50⟩, 80⟩,
          ⟨HookState.IDLE, false, false, false, ⟨0, 0, 0⟩, ⟨0, 0, 0⟩, 80⟩,
          false, 0, ⟨0, 0, 10⟩⟩).2 = []) := by
  have hl10 : Vec3.length ⟨(0 : ℝ), 0, 10⟩ = 10 := by
    unfold Vec3.length; apply sqrtEq <;> norm_num
  have hl1 : Vec3.length ⟨(0 : ℝ), 0, 1⟩ = 1 := by
    unfold Vec3.length; apply sqrtEq <;> norm_num
  exact wall_impact_detach ⟨⟨0, 0, -1⟩, none, false, false, 1⟩
    ⟨false, false, false, false, false, false, false⟩
    ⟨⟨0, 0, 0⟩, ⟨0, 0, 1⟩,
      ⟨HookState.ATTACHED, false, true, true, ⟨0, 0, 50⟩, ⟨0, 0, 50⟩, 80⟩,
      ⟨HookState.IDLE, false, false, false, ⟨0, 0, 0⟩, ⟨0, 0, 0⟩, 80⟩,
      false, 0, ⟨0, 0, 10⟩⟩ (Or.inl rfl)
    (by dsimp only; rw [hl10]; norm_num)
    (by dsimp only; rw [hl10, hl1]; norm_num)
